import Mathlib

/-!
# Verification of the Product-Microservices currency engine

Shallow embedding of the currency exchange-rate service:
the data layer (`ExchangeRates` in `currency/data`) and the gRPC server layer
(`Currency` in `currency/server`, in its variant with request validation,
duplicate-subscription checking and streaming error replies).

Go `map[string]float64` is modelled as an association list with overwrite-on-insert
semantics; Go `float64` values are modelled as rationals (ℚ): every arithmetic
operation the code performs on rates is a single division, and the exactness
properties at stake are preserved by this reading.
-/

namespace ProductMicroservices

/-- A rate table: the in-memory `rates map[string]float64` of `ExchangeRates`. -/
abbrev RTable := List (String × ℚ)

/-- Map lookup `e.rates[code]`: `some r` when present, `none` when absent. -/
def lookupRate (t : RTable) (c : String) : Option ℚ :=
  (t.find? (fun p => p.1 = c)).map (fun p => p.2)

/-- Map assignment `e.rates[code] = r`: overwrite an existing binding, else append. -/
def setRate : RTable → String → ℚ → RTable
  | [], c, v => [(c, v)]
  | p :: ps, c, v => if p.1 = c then (c, v) :: ps else p :: setRate ps c v

/-- The error values `fmt.Errorf("rate not found for currency %s", code)`
produced by the data-layer lookup; the error message names the absent code. -/
inductive RateError where
  | unknownCurrency (code : String)
deriving DecidableEq

/-- `ExchangeRates.GetRate(base, dest)` from `currency/data`: Go returns a pair
`(float64, error)`; on a missing code it returns `(0, err)` naming that code
(base checked first), otherwise `(dest rate / base rate, nil)`.
`none` in the second component is Go's `nil` error. -/
def ExchangeRates.GetRate (t : RTable) (base dest : String) : ℚ × Option RateError :=
  match lookupRate t base with
  | none => (0, some (.unknownCurrency base))
  | some br =>
    match lookupRate t dest with
    | none => (0, some (.unknownCurrency dest))
    | some dr => (dr / br, none)

/-- One `<Cube currency='XXX' rate='...'/>` entry of the decoded feed.
The `rate` field holds the result of `strconv.ParseFloat` on the rate
attribute: `none` models a string that does not parse as a float. -/
structure Cube where
  currency : String
  rate : Option ℚ
deriving DecidableEq

/-- Outcome of the HTTP GET against the feed URL, as seen by `GetRates`:
either a transport-level error (`err != nil` from `http.Get`) or a response
with a status code and decoded cube list. -/
inductive FetchResult where
  | transportError
  | response (status : Nat) (cubes : List Cube)
deriving DecidableEq

/-- The non-nil errors `GetRates` can return: the non-200 status error and the
`strconv.ParseFloat` error. -/
inductive GetRatesError where
  | badStatus (code : Nat)
  | parseError
deriving DecidableEq

/-- The decode loop of `GetRates`: `for _, c := range md.CubeData { ... }`.
Each parsed cube is written into the map as the loop goes; on the first
unparsable rate the function returns the error with the map already holding
the entries written so far. -/
def ExchangeRates.applyCubes : RTable → List Cube → RTable × Option GetRatesError
  | t, [] => (t, none)
  | t, c :: cs =>
    match c.rate with
    | none => (t, some .parseError)
    | some r => ExchangeRates.applyCubes (setRate t c.currency r) cs

/-- `ExchangeRates.GetRates()` from `currency/data` (the variant the servers
use): on a transport error it returns `nil` without touching the map (this is
the code's literal behaviour); on a non-200 status it returns an error; then it
runs the decode loop, and only after the whole loop succeeds does it set
`e.rates["EUR"] = 1` and return `nil`. The map is mutated in place, never
cleared. -/
def ExchangeRates.GetRates (t : RTable) (fr : FetchResult) : RTable × Option GetRatesError :=
  match fr with
  | .transportError => (t, none)
  | .response status cubes =>
    if status ≠ 200 then (t, some (.badStatus status))
    else
      match ExchangeRates.applyCubes t cubes with
      | (t2, none) => (setRate t2 "EUR" 1, none)
      | (t2, some e) => (t2, some e)

/-- A `protos.RateRequest`: base and destination currencies. The server only
ever uses the enum values through `.String()`, so each currency is modelled by
its name; equality of the strings is equality of the enum values. -/
structure RateRequest where
  base : String
  destination : String
deriving DecidableEq

/-- A `protos.RateResponse` payload: base, destination and computed rate. -/
structure RateResponse where
  base : String
  destination : String
  rate : ℚ
deriving DecidableEq

/-- What the server-level `Currency.GetRate` hands to the gRPC framework: a
`codes.InvalidArgument` status carrying the offending request as detail
(via `status.WithDetails(rr)`), the propagated data-layer lookup error, or a
successful `RateResponse`. -/
inductive GetRateReply where
  | invalidArgument (detail : RateRequest)
  | unknownCurrency (code : String)
  | ok (resp : RateResponse)
deriving DecidableEq

/-- `Currency.GetRate` from `currency/server` (the variant with validation):
if `rr.Destination == rr.Base` it returns the `InvalidArgument` status with the
request attached as detail; otherwise it delegates to the data layer, returning
its error unchanged, or the `RateResponse` on success. -/
def Currency.GetRate (t : RTable) (rr : RateRequest) : GetRateReply :=
  if rr.destination = rr.base then .invalidArgument rr
  else
    match ExchangeRates.GetRate t rr.base rr.destination with
    | (_, some (.unknownCurrency c)) => .unknownCurrency c
    | (r, none) => .ok ⟨rr.base, rr.destination, r⟩

/-- The server's `subscriptions map[Currency_SubscribeRatesServer][]*RateRequest`:
per stream-connection handle (modelled as a natural number) the list of
subscribed requests, in insertion order. -/
abbrev SubMap := List (Nat × List RateRequest)

/-- `rrs, ok := c.subscriptions[src]; if !ok { rrs = [] }`: the connection's
subscription list, the empty list when the connection has no entry. -/
def lookupSubs (s : SubMap) (conn : Nat) : List RateRequest :=
  ((s.find? (fun p => p.1 = conn)).map (fun p => p.2)).getD []

/-- `c.subscriptions[src] = rrs`: overwrite the connection's entry, else append. -/
def setSubs : SubMap → Nat → List RateRequest → SubMap
  | [], c, v => [(c, v)]
  | p :: ps, c, v => if p.1 = c then (c, v) :: ps else p :: setSubs ps c v

/-- The `codes.AlreadyExists` status the server sends back on the stream (as a
`StreamingRateResponse_Error` message) when a duplicate subscription arrives,
with the offending request attached as detail. -/
inductive StreamErr where
  | alreadyExists (detail : RateRequest)
deriving DecidableEq

/-- The body of `Currency.SubscribeRates` for one received request: look up the
connection's list; if some recorded request has the same base and destination,
leave the registry alone and produce the `AlreadyExists` error (which the loop
sends on the stream before `continue`); otherwise append the request and store
the list back. -/
def Currency.handleRequest (s : SubMap) (conn : Nat) (rr : RateRequest) :
    SubMap × Option StreamErr :=
  if (lookupSubs s conn).any
      (fun v => v.base = rr.base ∧ v.destination = rr.destination) then
    (s, some (.alreadyExists rr))
  else
    (setSubs s conn (lookupSubs s conn ++ [rr]), none)

/-- One observable event of a connection's receive loop: a decoded request from
`src.Recv()`, a clean end of stream (`io.EOF`), or any other receive error. -/
inductive Event where
  | msg (rr : RateRequest)
  | eof
  | recvError
deriving DecidableEq

/-- The receive loop of `Currency.SubscribeRates`, run over the finite trace of
events the stream delivers: on `io.EOF` it breaks and returns `nil`; on another
receive error it returns that error (the Bool records whether an error was
returned); each request goes through `Currency.handleRequest` and any
`AlreadyExists` error is sent on the stream (collected in the list) before the
loop continues. In no exit path does the loop delete the connection's entry
from the subscription map. -/
def Currency.SubscribeRates (s : SubMap) (conn : Nat) :
    List Event → SubMap × Bool × List StreamErr
  | [] => (s, false, [])
  | .eof :: _ => (s, false, [])
  | .recvError :: _ => (s, true, [])
  | .msg rr :: rest =>
    match Currency.handleRequest s conn rr with
    | (s2, e) =>
      match Currency.SubscribeRates s2 conn rest with
      | (s3, b, es) => (s3, b, e.toList ++ es)

/-- One outbound fan-out message: which connection it is sent to and the
`RateResponse` payload it carries. -/
structure SentRate where
  conn : Nat
  resp : RateResponse
deriving DecidableEq

/-- One pass of the fan-out loop in `Currency.handleUpdates` (the body run per
`MonitorRates` tick): for every subscribed client and every one of its
recorded requests, it calls the data-layer `GetRate`, logs but otherwise
ignores a lookup error, and sends a `RateResponse` whose rate is the first
component of the Go return pair — `0` whenever the lookup failed. -/
def Currency.handleUpdates (t : RTable) (s : SubMap) : List SentRate :=
  s.flatMap (fun kv =>
    kv.2.map (fun rr =>
      ⟨kv.1, ⟨rr.base, rr.destination, (ExchangeRates.GetRate t rr.base rr.destination).1⟩⟩))

/-! ## Helper lemmas about the map embeddings -/

/-- Assigning a key and then looking it up (or another key) behaves like a map. -/
theorem lookupRate_setRate (t : RTable) (c k : String) (v : ℚ) :
    lookupRate (setRate t c v) k = if k = c then some v else lookupRate t k := by
  induction t with
  | nil =>
    by_cases h : k = c
    · simp [setRate, lookupRate, List.find?, h]
    · have h2 : ¬ c = k := fun hh => h hh.symm
      simp [setRate, lookupRate, List.find?, h, h2]
  | cons p ps ih =>
    by_cases hp : p.1 = c
    · by_cases hk : k = c
      · simp [setRate, hp, lookupRate, List.find?, hk]
      · have h2 : ¬ c = k := fun hh => hk hh.symm
        have hpk : ¬ p.1 = k := by rw [hp]; exact h2
        simp [setRate, hp, lookupRate, List.find?, hk, hpk, h2]
    · by_cases hpk : p.1 = k
      · have hk : ¬ k = c := fun h => hp (hpk.trans h)
        simp [setRate, hp, lookupRate, List.find?, hpk, hk]
      · simp only [setRate, if_neg hp]
        simp only [lookupRate] at ih ⊢
        rw [List.find?_cons_of_neg _ (by simp [hpk]),
          List.find?_cons_of_neg _ (by simp [hpk])]
        exact ih

/-- Keys that never occur in the decoded cubes are untouched by the decode loop. -/
theorem lookupRate_applyCubes (t : RTable) (cubes : List Cube) (k : String)
    (h : ∀ cu ∈ cubes, cu.currency ≠ k) :
    lookupRate (ExchangeRates.applyCubes t cubes).1 k = lookupRate t k := by
  induction cubes generalizing t with
  | nil => rfl
  | cons cu cs ih =>
    cases hcu : cu.rate with
    | none => simp [ExchangeRates.applyCubes, hcu]
    | some r =>
      have hstep : ExchangeRates.applyCubes t (cu :: cs)
          = ExchangeRates.applyCubes (setRate t cu.currency r) cs := by
        simp [ExchangeRates.applyCubes, hcu]
      rw [hstep, ih _ (fun c hc => h c (List.mem_cons_of_mem _ hc)),
        lookupRate_setRate]
      exact if_neg (fun hk => h cu (List.mem_cons_self _ _) hk.symm)

/-- Assigning a connection's subscription list and reading it back. -/
theorem lookupSubs_setSubs_self (s : SubMap) (c : Nat) (v : List RateRequest) :
    lookupSubs (setSubs s c v) c = v := by
  induction s with
  | nil => simp [setSubs, lookupSubs, List.find?]
  | cons p ps ih =>
    by_cases hp : p.1 = c
    · simp [setSubs, hp, lookupSubs, List.find?]
    · simp only [setSubs, if_neg hp]
      simp only [lookupSubs] at ih ⊢
      rw [List.find?_cons_of_neg _ (by simp [hp])]
      exact ih

/-- A request recorded for a connection survives one `handleRequest` step. -/
theorem mem_lookupSubs_handleRequest (s : SubMap) (conn : Nat)
    (rr rr2 : RateRequest) (h : rr ∈ lookupSubs s conn) :
    rr ∈ lookupSubs (Currency.handleRequest s conn rr2).1 conn := by
  unfold Currency.handleRequest
  by_cases hdup : ((lookupSubs s conn).any
      (fun v => v.base = rr2.base ∧ v.destination = rr2.destination)) = true
  · rw [if_pos hdup]
    exact h
  · rw [if_neg hdup]
    simp only [lookupSubs_setSubs_self]
    exact List.mem_append_left _ h

/-- A request recorded for a connection survives the whole receive loop. -/
theorem mem_lookupSubs_subscribeRates (s : SubMap) (conn : Nat)
    (evs : List Event) (rr : RateRequest) (h : rr ∈ lookupSubs s conn) :
    rr ∈ lookupSubs (Currency.SubscribeRates s conn evs).1 conn := by
  induction evs generalizing s with
  | nil => exact h
  | cons ev rest ih =>
    cases ev with
    | eof => exact h
    | recvError => exact h
    | msg rr2 =>
      have h2 := mem_lookupSubs_handleRequest s conn rr rr2 h
      rcases hh : Currency.handleRequest s conn rr2 with ⟨s2, e⟩
      rw [hh] at h2
      have h3 := ih s2 h2
      rcases hr : Currency.SubscribeRates s2 conn rest with ⟨s3, b, es⟩
      rw [hr] at h3
      have hstep : Currency.SubscribeRates s conn (.msg rr2 :: rest)
          = (s3, b, e.toList ++ es) := by
        simp only [Currency.SubscribeRates, hh, hr]
      rw [hstep]
      exact h3

/-- A request recorded for a connection is visited by the fan-out pass: the
corresponding message (with the Go first-component rate) is among the sends. -/
theorem mem_handleUpdates (t : RTable) (s : SubMap) (conn : Nat)
    (rr : RateRequest) (h : rr ∈ lookupSubs s conn) :
    (⟨conn, ⟨rr.base, rr.destination,
        (ExchangeRates.GetRate t rr.base rr.destination).1⟩⟩ : SentRate) ∈
      Currency.handleUpdates t s := by
  unfold lookupSubs at h
  cases hf : s.find? (fun p => p.1 = conn) with
  | none => rw [hf] at h; simp at h
  | some p =>
    rw [hf] at h
    simp only [Option.map_some', Option.getD_some] at h
    have hpc : p.1 = conn :=
      of_decide_eq_true (@List.find?_some _ (fun q => decide (q.1 = conn)) p s hf)
    have hps : p ∈ s := List.mem_of_find?_eq_some hf
    unfold Currency.handleUpdates
    refine List.mem_flatMap.mpr ⟨p, hps, ?_⟩
    refine List.mem_map.mpr ⟨rr, h, ?_⟩
    rw [hpc]

/-! ## The claims -/

/-- C1: over any table snapshot (whose rates are, per the data model,
positive), when both codes are present the data-layer `GetRate` succeeds and
returns exactly `table[dest] / table[base]`; in particular `GetRate x x`
returns exactly 1 for any present code `x`. -/
theorem C1_data_getRate_quotient (t : RTable) (base dest x : String)
    (br dr r : ℚ) (hb : lookupRate t base = some br)
    (hd : lookupRate t dest = some dr)
    (hx : lookupRate t x = some r) (hr : 0 < r) :
    ExchangeRates.GetRate t base dest = (dr / br, none) ∧
    ExchangeRates.GetRate t x x = (1, none) := by
  refine ⟨?_, ?_⟩
  · simp [ExchangeRates.GetRate, hb, hd]
  · simp only [ExchangeRates.GetRate, hx, Prod.mk.injEq]
    exact ⟨div_self (ne_of_gt hr), trivial⟩

/-- C1 witness: on the table EUR↦1, USD↦11/10, GBP↦17/20, the rate for
(USD, GBP) is (17/20)/(11/10) and the rate for (EUR, EUR) is 1. -/
theorem C1_witness :
    ExchangeRates.GetRate [("EUR", 1), ("USD", 11/10), ("GBP", 17/20)]
        "USD" "GBP" = (17/20 / (11/10), none) ∧
    ExchangeRates.GetRate [("EUR", 1), ("USD", 11/10), ("GBP", 17/20)]
        "EUR" "EUR" = (1, none) :=
  ⟨(C1_data_getRate_quotient [("EUR", 1), ("USD", 11/10), ("GBP", 17/20)]
      "USD" "GBP" "EUR" (11/10) (17/20) 1 rfl rfl rfl (by norm_num)).1,
   (C1_data_getRate_quotient [("EUR", 1), ("USD", 11/10), ("GBP", 17/20)]
      "USD" "GBP" "EUR" (11/10) (17/20) 1 rfl rfl rfl (by norm_num)).2⟩

/-- C2: the service-level `GetRate` rejects any request with equal base and
destination with `InvalidArgument` carrying the request as detail, for every
table snapshot. -/
theorem C2_server_getRate_same_currency (t : RTable) (rr : RateRequest)
    (h : rr.base = rr.destination) :
    Currency.GetRate t rr = .invalidArgument rr := by
  simp [Currency.GetRate, h]

/-- C2 witness: the request (EUR, EUR) is rejected even on the empty table. -/
theorem C2_witness :
    Currency.GetRate [] ⟨"EUR", "EUR"⟩
      = .invalidArgument ⟨"EUR", "EUR"⟩ :=
  C2_server_getRate_same_currency [] ⟨"EUR", "EUR"⟩ rfl

/-- C4: on a transport-level error from the HTTP GET, `GetRates` returns
`(unchanged table, nil)` — it reports success. The spec requires a
`FeedUnavailable` error here, and §9 of the design document itself flags this
`return nil` as a likely oversight, so this is a bug in the code. -/
theorem C4_transport_error_reports_success (t : RTable) :
    ExchangeRates.GetRates t .transportError = (t, none) := rfl

/-- C9: a data-layer lookup with an absent code fails with an error naming the
absent code — the base's code when the base is absent (checked first),
otherwise the destination's code — and the successful-rate component is never
produced (Go returns the zero value 0 alongside the error). -/
theorem C9_unknown_currency_named (t : RTable) (base dest : String) :
    (lookupRate t base = none →
      ExchangeRates.GetRate t base dest
        = (0, some (.unknownCurrency base))) ∧
    (∀ br, lookupRate t base = some br → lookupRate t dest = none →
      ExchangeRates.GetRate t base dest
        = (0, some (.unknownCurrency dest))) := by
  constructor
  · intro h
    simp [ExchangeRates.GetRate, h]
  · intro br hb hd
    simp [ExchangeRates.GetRate, hb, hd]

/-- C9 witness: on the table EUR↦1, a lookup with absent base XXX names XXX,
and a lookup with present base EUR but absent destination YYY names YYY. -/
theorem C9_witness :
    ExchangeRates.GetRate [("EUR", 1)] "XXX" "EUR"
        = (0, some (.unknownCurrency "XXX")) ∧
    ExchangeRates.GetRate [("EUR", 1)] "EUR" "YYY"
        = (0, some (.unknownCurrency "YYY")) :=
  ⟨(C9_unknown_currency_named [("EUR", 1)] "XXX" "EUR").1 rfl,
   (C9_unknown_currency_named [("EUR", 1)] "EUR" "YYY").2 1 rfl rfl⟩

/-- C3 counterexample: prior snapshot {EUR ↦ 1}; the feed answers 200 with the
cubes USD="1.1", GBP="abc" (second rate unparsable). The fetch fails with the
parse error, yet USD — absent before — is now present in the table: the prior
snapshot was not left unchanged, refuting the claim for parse failures. -/
theorem C3_counterexample :
    (ExchangeRates.GetRates [("EUR", 1)]
        (.response 200 [⟨"USD", some (11/10)⟩, ⟨"GBP", none⟩])).2
      = some .parseError ∧
    lookupRate [("EUR", (1 : ℚ))] "USD" = none ∧
    lookupRate (ExchangeRates.GetRates [("EUR", 1)]
        (.response 200 [⟨"USD", some (11/10)⟩, ⟨"GBP", none⟩])).1 "USD"
      = some (11/10) :=
  ⟨rfl, rfl, rfl⟩

/-- C3 (amended): a fetch failing at transport level or with a non-200 status
leaves the prior snapshot unchanged; a fetch failing on an unparsable rate,
however, returns with the table as mutated by the decode loop up to the failing
cube, so entries decoded before the failure have already been merged in. -/
theorem C3_feed_failure_prior_snapshot (t : RTable) (st : Nat)
    (cubes : List Cube) :
    (ExchangeRates.GetRates t .transportError).1 = t ∧
    (st ≠ 200 → (ExchangeRates.GetRates t (.response st cubes)).1 = t) ∧
    (∀ e, (ExchangeRates.applyCubes t cubes).2 = some e →
      (ExchangeRates.GetRates t (.response 200 cubes)).1
        = (ExchangeRates.applyCubes t cubes).1) := by
  refine ⟨rfl, ?_, ?_⟩
  · intro h
    simp [ExchangeRates.GetRates, h]
  · intro e he
    rcases hac : ExchangeRates.applyCubes t cubes with ⟨t2, e2⟩
    rw [hac] at he
    cases e2 with
    | none => simp at he
    | some e3 => simp [ExchangeRates.GetRates, hac]

/-- C3 witness: a 404 response leaves {EUR ↦ 1} unchanged, and the parse
failure of the C3 counterexample feed returns exactly the partially-updated
loop table. -/
theorem C3_witness :
    (ExchangeRates.GetRates [("EUR", (1 : ℚ))] (.response 404 [])).1
      = [("EUR", (1 : ℚ))] ∧
    (ExchangeRates.GetRates [("EUR", (1 : ℚ))]
        (.response 200 [⟨"USD", some (11/10)⟩, ⟨"GBP", none⟩])).1
      = (ExchangeRates.applyCubes [("EUR", (1 : ℚ))]
          [⟨"USD", some (11/10)⟩, ⟨"GBP", none⟩]).1 :=
  ⟨(C3_feed_failure_prior_snapshot [("EUR", 1)] 404 []).2.1 (by decide),
   (C3_feed_failure_prior_snapshot [("EUR", 1)] 200
      [⟨"USD", some (11/10)⟩, ⟨"GBP", none⟩]).2.2 .parseError rfl⟩

/-- C5 counterexample: prior snapshot {USD ↦ 11/10}; the feed successfully
delivers only GBP. The update returns nil (success), yet USD — absent from the
new mapping and distinct from the reference currency — is still present
afterwards: the snapshot is merged into, not replaced, refuting the claim. -/
theorem C5_counterexample :
    (ExchangeRates.GetRates [("USD", 11/10)]
        (.response 200 [⟨"GBP", some (17/20)⟩])).2 = none ∧
    lookupRate (ExchangeRates.GetRates [("USD", 11/10)]
        (.response 200 [⟨"GBP", some (17/20)⟩])).1 "USD" = some (11/10) :=
  ⟨rfl, rfl⟩

/-- C5 (amended): a successful update merges the new mapping into the existing
snapshot instead of replacing it: every code other than the reference currency
that does not occur in the new mapping keeps exactly its previous binding —
in particular, codes present before but absent from the new mapping remain
present. -/
theorem C5_update_merges (t : RTable) (cubes : List Cube) (k : String)
    (hk : k ≠ "EUR") (hnc : ∀ cu ∈ cubes, cu.currency ≠ k)
    (hok : (ExchangeRates.GetRates t (.response 200 cubes)).2 = none) :
    lookupRate (ExchangeRates.GetRates t (.response 200 cubes)).1 k
      = lookupRate t k := by
  rcases hac : ExchangeRates.applyCubes t cubes with ⟨t2, e⟩
  cases e with
  | some e2 =>
    have hbad : (ExchangeRates.GetRates t (.response 200 cubes)).2 = some e2 := by
      simp [ExchangeRates.GetRates, hac]
    rw [hbad] at hok
    cases hok
  | none =>
    have hres : ExchangeRates.GetRates t (.response 200 cubes)
        = (setRate t2 "EUR" 1, none) := by
      simp [ExchangeRates.GetRates, hac]
    rw [hres]
    have hpres := lookupRate_applyCubes t cubes k hnc
    rw [hac] at hpres
    rw [lookupRate_setRate, if_neg hk]
    exact hpres

/-- C5 witness: after the successful GBP-only update over {USD ↦ 11/10}, the
USD binding is exactly what it was before. -/
theorem C5_witness :
    lookupRate (ExchangeRates.GetRates [("USD", 11/10)]
        (.response 200 [⟨"GBP", some (17/20)⟩])).1 "USD"
      = lookupRate [("USD", (11/10 : ℚ))] "USD" :=
  C5_update_merges [("USD", 11/10)] [⟨"GBP", some (17/20)⟩] "USD"
    (by decide) (by decide) rfl

/-- C8: after every successful run of the update (feed fetched with status 200
and every rate parsed), the reference currency EUR is present and bound to
exactly 1, whatever the feed said about it. -/
theorem C8_reference_currency_is_one (t : RTable) (cubes : List Cube)
    (hok : (ExchangeRates.GetRates t (.response 200 cubes)).2 = none) :
    lookupRate (ExchangeRates.GetRates t (.response 200 cubes)).1 "EUR"
      = some 1 := by
  rcases hac : ExchangeRates.applyCubes t cubes with ⟨t2, e⟩
  cases e with
  | some e2 =>
    have hbad : (ExchangeRates.GetRates t (.response 200 cubes)).2 = some e2 := by
      simp [ExchangeRates.GetRates, hac]
    rw [hbad] at hok
    cases hok
  | none =>
    have hres : ExchangeRates.GetRates t (.response 200 cubes)
        = (setRate t2 "EUR" 1, none) := by
      simp [ExchangeRates.GetRates, hac]
    rw [hres, lookupRate_setRate, if_pos rfl]

/-- C8 witness: a feed that claims EUR = 2 still leaves EUR bound to 1 after
the successful update. -/
theorem C8_witness :
    lookupRate (ExchangeRates.GetRates []
        (.response 200 [⟨"EUR", some 2⟩, ⟨"USD", some (11/10)⟩])).1 "EUR"
      = some 1 :=
  C8_reference_currency_is_one [] [⟨"EUR", some 2⟩, ⟨"USD", some (11/10)⟩] rfl

/-- C6: when the exact (base, destination) pair is already recorded for the
connection, the subscribe step returns the registry unchanged together with
the AlreadyExists error, and the receive loop sends that error on the stream
and keeps processing the remaining events; when the pair is not recorded, the
step produces no error and appends the pair to the connection's list. -/
theorem C6_subscribe_duplicate_rejected (s : SubMap) (conn : Nat)
    (rr : RateRequest) :
    ((∃ v ∈ lookupSubs s conn,
        v.base = rr.base ∧ v.destination = rr.destination) →
      Currency.handleRequest s conn rr = (s, some (.alreadyExists rr)) ∧
      ∀ rest, Currency.SubscribeRates s conn (.msg rr :: rest)
        = ((Currency.SubscribeRates s conn rest).1,
           (Currency.SubscribeRates s conn rest).2.1,
           .alreadyExists rr :: (Currency.SubscribeRates s conn rest).2.2)) ∧
    ((∀ v ∈ lookupSubs s conn,
        ¬(v.base = rr.base ∧ v.destination = rr.destination)) →
      (Currency.handleRequest s conn rr).2 = none ∧
      lookupSubs (Currency.handleRequest s conn rr).1 conn
        = lookupSubs s conn ++ [rr]) := by
  constructor
  · intro hdup
    have hany : ((lookupSubs s conn).any
        (fun v => v.base = rr.base ∧ v.destination = rr.destination)) = true := by
      rcases hdup with ⟨v, hv, h1, h2⟩
      exact List.any_eq_true.mpr ⟨v, hv, by simp [h1, h2]⟩
    have hreq : Currency.handleRequest s conn rr
        = (s, some (.alreadyExists rr)) := by
      unfold Currency.handleRequest
      rw [if_pos hany]
    refine ⟨hreq, ?_⟩
    intro rest
    rcases hr : Currency.SubscribeRates s conn rest with ⟨s3, b, es⟩
    have hstep : Currency.SubscribeRates s conn (.msg rr :: rest)
        = (s3, b, .alreadyExists rr :: es) := by
      simp only [Currency.SubscribeRates, hreq, hr, Option.toList_some,
        List.singleton_append]
    rw [hstep]
  · intro hnone
    have hcond : ¬ ((lookupSubs s conn).any
        (fun v => v.base = rr.base ∧ v.destination = rr.destination)) = true := by
      rw [List.any_eq_true]
      rintro ⟨v, hv, hvp⟩
      exact hnone v hv (of_decide_eq_true hvp)
    refine ⟨?_, ?_⟩
    · unfold Currency.handleRequest
      rw [if_neg hcond]
    · unfold Currency.handleRequest
      rw [if_neg hcond]
      exact lookupSubs_setSubs_self s conn _

/-- C6 witness: on a registry where connection 0 already holds (EUR, USD),
resubscribing (EUR, USD) yields AlreadyExists and the unchanged registry; on
the empty registry the same request is appended with no error. -/
theorem C6_witness :
    Currency.handleRequest [(0, [⟨"EUR", "USD"⟩])] 0 ⟨"EUR", "USD"⟩
      = ([(0, [⟨"EUR", "USD"⟩])], some (.alreadyExists ⟨"EUR", "USD"⟩)) ∧
    (Currency.handleRequest [] 0 ⟨"EUR", "USD"⟩).2 = none ∧
    lookupSubs (Currency.handleRequest [] 0 ⟨"EUR", "USD"⟩).1 0
      = [⟨"EUR", "USD"⟩] :=
  ⟨((C6_subscribe_duplicate_rejected [(0, [⟨"EUR", "USD"⟩])] 0
      ⟨"EUR", "USD"⟩).1 (by decide)).1,
   ((C6_subscribe_duplicate_rejected [] 0 ⟨"EUR", "USD"⟩).2 (by decide)).1,
   (((C6_subscribe_duplicate_rejected [] 0 ⟨"EUR", "USD"⟩).2
       (by decide)).2).trans rfl⟩

/-- C7 counterexample: starting from an empty registry, connection 0 subscribes
(EUR, USD) and then the stream ends — cleanly (EOF) in the first conjunct, with
a receive error in the second. In both runs the connection's subscription is
still recorded after the loop returns, refuting the claim that teardown removes
it. -/
theorem C7_counterexample :
    lookupSubs (Currency.SubscribeRates [] 0
        [.msg ⟨"EUR", "USD"⟩, .eof]).1 0 = [⟨"EUR", "USD"⟩] ∧
    lookupSubs (Currency.SubscribeRates [] 0
        [.msg ⟨"EUR", "USD"⟩, .recvError]).1 0 = [⟨"EUR", "USD"⟩] :=
  ⟨rfl, rfl⟩

/-- C7 (amended): termination of the receive loop — clean end-of-stream or
receive error — removes nothing: every pair recorded for the connection is
still in the registry afterwards, and a later fan-out pass still sends that
connection a message for each such pair. -/
theorem C7_teardown_keeps_subscriptions (s : SubMap) (conn : Nat)
    (evs : List Event) (rr : RateRequest) (t : RTable)
    (h : rr ∈ lookupSubs s conn) :
    rr ∈ lookupSubs (Currency.SubscribeRates s conn evs).1 conn ∧
    (⟨conn, ⟨rr.base, rr.destination,
        (ExchangeRates.GetRate t rr.base rr.destination).1⟩⟩ : SentRate) ∈
      Currency.handleUpdates t (Currency.SubscribeRates s conn evs).1 := by
  have h1 := mem_lookupSubs_subscribeRates s conn evs rr h
  exact ⟨h1, mem_handleUpdates t _ conn rr h1⟩

/-- C7 witness: connection 0 holds (EUR, USD); after its stream delivers EOF,
the pair is still recorded and the next fan-out pass over the empty table still
sends it a message. -/
theorem C7_witness :
    (⟨"EUR", "USD"⟩ : RateRequest) ∈
      lookupSubs (Currency.SubscribeRates [(0, [⟨"EUR", "USD"⟩])] 0 [.eof]).1 0 ∧
    (⟨0, ⟨"EUR", "USD", (ExchangeRates.GetRate [] "EUR" "USD").1⟩⟩ : SentRate) ∈
      Currency.handleUpdates []
        (Currency.SubscribeRates [(0, [⟨"EUR", "USD"⟩])] 0 [.eof]).1 :=
  C7_teardown_keeps_subscriptions [(0, [⟨"EUR", "USD"⟩])] 0 [.eof]
    ⟨"EUR", "USD"⟩ [] (by decide)

/-- C10: on an update tick, a connection with a recorded pair whose rate lookup
fails still receives a RateResponse for that pair, and the rate it carries is
0 — the error-case first component of the data-layer return pair. -/
theorem C10_fanout_sends_rate_zero_on_error (t : RTable) (s : SubMap)
    (conn : Nat) (l : List RateRequest) (rr : RateRequest)
    (hc : (conn, l) ∈ s) (hrr : rr ∈ l)
    (herr : (ExchangeRates.GetRate t rr.base rr.destination).2.isSome = true) :
    (ExchangeRates.GetRate t rr.base rr.destination).1 = 0 ∧
    (⟨conn, ⟨rr.base, rr.destination, 0⟩⟩ : SentRate)
      ∈ Currency.handleUpdates t s := by
  have h0 : (ExchangeRates.GetRate t rr.base rr.destination).1 = 0 := by
    unfold ExchangeRates.GetRate at herr ⊢
    cases hb : lookupRate t rr.base with
    | none => simp [hb]
    | some br =>
      cases hd : lookupRate t rr.destination with
      | none => simp [hb, hd]
      | some dr =>
        rw [hb, hd] at herr
        simp at herr
  refine ⟨h0, ?_⟩
  unfold Currency.handleUpdates
  refine List.mem_flatMap.mpr ⟨(conn, l), hc, ?_⟩
  refine List.mem_map.mpr ⟨rr, hrr, ?_⟩
  simp [h0]

/-- C10 witness: the table is empty, connection 0 has recorded (EUR, USD); the
lookup fails, yet the fan-out pass still sends connection 0 a RateResponse for
(EUR, USD), carrying rate 0. -/
theorem C10_witness :
    (ExchangeRates.GetRate [] "EUR" "USD").1 = 0 ∧
    (⟨0, ⟨"EUR", "USD", 0⟩⟩ : SentRate)
      ∈ Currency.handleUpdates [] [(0, [⟨"EUR", "USD"⟩])] :=
  C10_fanout_sends_rate_zero_on_error [] [(0, [⟨"EUR", "USD"⟩])] 0
    [⟨"EUR", "USD"⟩] ⟨"EUR", "USD"⟩ (by decide) (by decide) rfl

end ProductMicroservices
